import Mathlib

set_option maxHeartbeats 1000000
set_option maxRecDepth 8000

/-!
Verification development for the chakra-client signaling client
(`src/client.ts`): the pending-call registry (`filterCallbacks`,
`resolveCallbacks`, `rejectCallbacks`), the inbound message dispatcher
(the socket `message` handler installed by `registerEvents`), the
connection lifecycle (`connect`, the socket `close` handler and its
reconnect scheduling), and the registry-relevant part of `watchStream`.

The source's callback entries hold opaque `resolve`/`reject` functions;
here each registered pending call is identified by a numeric id and the
invocation of one of its two handlers is recorded as an event, so that
"which handler fired, with what argument, how many times" is observable.
-/

/-- Action name of the connect/negotiate frames (source: `ACTION_CONNECT`). -/
def ACTION_CONNECT : String := "Connect"

/-- Session-description payload exchanged over the wire (source: `SessionDescription`). -/
structure SessionDescription where
  type : String
  sdp : String
  candidate : Option String
deriving DecidableEq, Repr

/-- Decoded inbound wire message (source: `Message`). -/
structure Message where
  action : String
  status : Int
  stream : String
  data : SessionDescription
deriving DecidableEq, Repr

/-- Typed client error: the error message string plus the optional original
wire message (source: `ClientError`, which extends `Error` with `msg`). -/
structure ClientError where
  message : String
  msg : Option Message
deriving DecidableEq, Repr

/-- A pending-call registry entry (source: `Callback`). The `resolve`/`reject`
functions are modelled by the numeric id of the registered call owning them. -/
structure Callback where
  stream : String
  id : Nat
deriving DecidableEq, Repr

/-- An invocation of a pending call's resolve or reject handler. -/
inductive CbEvent where
  | resolved (id : Nat) (data : SessionDescription)
  | rejected (id : Nat) (err : ClientError)
deriving DecidableEq, Repr

/-- Result of one run of the `filterCallbacks` loop: the final callback
array, the handler invocations performed (in order), and the entries the
filter predicate was called on (in order). -/
structure FilterOut where
  callbacks : List Callback
  events : List CbEvent
  visited : List Callback
deriving DecidableEq, Repr

/-- The `filterCallbacks` loop of the source: forward iteration over the
callback array starting at index `i`; when `handler` returns `false` the
current entry is spliced out (`splice(i, 1)`) and the index stepped back
(`i--`, cancelled by the loop's `i++`). The handler's side effects (calls
into an entry's resolve/reject function) are returned as events. -/
def filterCallbacks (handler : Callback → Bool × List CbEvent)
    (cbs : List Callback) (i : Nat) : FilterOut :=
  if h : i < cbs.length then
    let c := cbs[i]
    let r := handler c
    if r.1 then
      let out := filterCallbacks handler cbs (i + 1)
      ⟨out.callbacks, r.2 ++ out.events, c :: out.visited⟩
    else
      let out := filterCallbacks handler (cbs.eraseIdx i) i
      ⟨out.callbacks, r.2 ++ out.events, c :: out.visited⟩
  else
    ⟨cbs, [], []⟩
termination_by cbs.length - i
decreasing_by
  · omega
  · have := List.length_eraseIdx_of_lt h
    omega

/-- Closed form of the splice loop: starting at index `i` it keeps exactly
the entries (beyond the already-processed prefix) on which the handler
returns `true`, performs the handler's effects once per remaining entry in
order, and visits every remaining entry exactly once. -/
theorem filterCallbacks_spec (handler : Callback → Bool × List CbEvent)
    (cbs : List Callback) (i : Nat) :
    filterCallbacks handler cbs i =
      ⟨cbs.take i ++ (cbs.drop i).filter (fun c => (handler c).1),
       ((cbs.drop i).map (fun c => (handler c).2)).flatten,
       cbs.drop i⟩ := by
  rw [filterCallbacks]
  by_cases h : i < cbs.length
  · rw [dif_pos h]
    have hdrop : cbs.drop i = cbs[i] :: cbs.drop (i + 1) :=
      List.drop_eq_getElem_cons h
    by_cases hk : (handler cbs[i]).1
    · simp only [hk, if_pos]
      rw [filterCallbacks_spec handler cbs (i + 1)]
      have htake : cbs.take (i + 1) = cbs.take i ++ [cbs[i]] := by
        rw [List.take_succ, List.getElem?_eq_getElem h]
        rfl
      simp only [FilterOut.mk.injEq]
      refine ⟨?_, ?_, ?_⟩
      · rw [htake, hdrop, List.filter_cons]
        simp only [hk, if_pos, List.append_assoc, List.singleton_append]
      · rw [hdrop, List.map_cons, List.flatten_cons]
      · rw [hdrop]
    · simp only [hk, if_neg, Bool.false_eq_true, not_false_iff]
      rw [filterCallbacks_spec handler (cbs.eraseIdx i) i]
      have hlen : (cbs.take i).length = i := by
        simp [List.length_take]
        omega
      have herase : cbs.eraseIdx i = cbs.take i ++ cbs.drop (i + 1) :=
        List.eraseIdx_eq_take_drop_succ ..
      have htake2 : (cbs.eraseIdx i).take i = cbs.take i := by
        rw [herase, List.take_left' hlen]
      have hdrop2 : (cbs.eraseIdx i).drop i = cbs.drop (i + 1) := by
        rw [herase, List.drop_left' hlen]
      simp only [FilterOut.mk.injEq]
      refine ⟨?_, ?_, ?_⟩
      · rw [htake2, hdrop2, hdrop, List.filter_cons]
        simp only [hk, if_neg, Bool.false_eq_true, not_false_iff, if_false]
      · rw [hdrop2, hdrop, List.map_cons, List.flatten_cons]
      · rw [hdrop2, hdrop]
  · rw [dif_neg h]
    have hle : cbs.length ≤ i := Nat.le_of_not_lt h
    have hdrop : cbs.drop i = [] := List.drop_eq_nil_of_le hle
    have htake : cbs.take i = cbs := List.take_of_length_le hle
    rw [hdrop, htake]
    simp
termination_by cbs.length - i
decreasing_by
  · omega
  · have := List.length_eraseIdx_of_lt h
    omega

/-- Corollary at index 0: one full run of the loop keeps exactly the
entries on which the handler returns `true`, fires the handler's effects
once per entry in the original order, and visits every entry exactly once. -/
theorem filterCallbacks_run (handler : Callback → Bool × List CbEvent)
    (cbs : List Callback) :
    filterCallbacks handler cbs 0 =
      ⟨cbs.filter (fun c => (handler c).1),
       (cbs.map (fun c => (handler c).2)).flatten,
       cbs⟩ := by
  rw [filterCallbacks_spec]
  simp

/-- Source: `resolveCallbacks(stream, data)` — for every entry whose
`stream` matches, call its resolve handler with `data` and remove it. -/
def resolveCallbacks (stream : String) (data : SessionDescription)
    (cbs : List Callback) : FilterOut :=
  filterCallbacks
    (fun callback =>
      if callback.stream == stream then (false, [CbEvent.resolved callback.id data])
      else (true, []))
    cbs 0

/-- Source: `rejectCallbacks(stream, error)` — for every entry whose
`stream` matches, call its reject handler with `error` and remove it. -/
def rejectCallbacks (stream : String) (error : ClientError)
    (cbs : List Callback) : FilterOut :=
  filterCallbacks
    (fun callback =>
      if callback.stream == stream then (false, [CbEvent.rejected callback.id error])
      else (true, []))
    cbs 0

/-- Closed form of `resolveCallbacks`: the surviving entries are exactly the
non-matching ones in their original order; each matching entry's resolve
handler is invoked exactly once, in order; every entry is visited once. -/
theorem resolveCallbacks_eq (stream : String) (data : SessionDescription)
    (cbs : List Callback) :
    resolveCallbacks stream data cbs =
      ⟨cbs.filter (fun c => !(c.stream == stream)),
       (cbs.filter (fun c => c.stream == stream)).map
         (fun c => CbEvent.resolved c.id data),
       cbs⟩ := by
  rw [resolveCallbacks, filterCallbacks_run]
  refine congrArg₂ (FilterOut.mk · · cbs) ?_ ?_
  · induction cbs with
    | nil => rfl
    | cons c rest ih =>
      by_cases hc : c.stream = stream <;>
        simp [List.filter_cons, hc] at ih ⊢ <;> exact ih
  · induction cbs with
    | nil => rfl
    | cons c rest ih =>
      by_cases hc : c.stream = stream <;>
        simp [List.filter_cons, hc] at ih ⊢ <;> exact ih

/-- Closed form of `rejectCallbacks`, symmetric to `resolveCallbacks_eq`. -/
theorem rejectCallbacks_eq (stream : String) (error : ClientError)
    (cbs : List Callback) :
    rejectCallbacks stream error cbs =
      ⟨cbs.filter (fun c => !(c.stream == stream)),
       (cbs.filter (fun c => c.stream == stream)).map
         (fun c => CbEvent.rejected c.id error),
       cbs⟩ := by
  rw [rejectCallbacks, filterCallbacks_run]
  refine congrArg₂ (FilterOut.mk · · cbs) ?_ ?_
  · induction cbs with
    | nil => rfl
    | cons c rest ih =>
      by_cases hc : c.stream = stream <;>
        simp [List.filter_cons, hc] at ih ⊢ <;> exact ih
  · induction cbs with
    | nil => rfl
    | cons c rest ih =>
      by_cases hc : c.stream = stream <;>
        simp [List.filter_cons, hc] at ih ⊢ <;> exact ih

/-- A general notification emitted on the client's event stream
(source: the `this.emit(...)` calls). The socket-level `error` event
forwards an opaque platform error, modelled as a string. -/
inductive Notif where
  | connect
  | close (code : Int)
  | error (e : ClientError)
  | socketError (e : String)
  | streamData (m : Message)
deriving DecidableEq, Repr

/-- The inbound-message branch of `registerEvents` (the socket `message`
listener): status 200 resolves the stream's pending calls, additionally
emitting `stream-data` when the action is the connect action; any other
status builds a `ClientError` carrying the status (as its message string)
and the original message, emits `error`, and rejects the stream's pending
calls. Returns the new callback array, the handler invocations, and the
emitted notifications. -/
def onMessage (message : Message) (cbs : List Callback) :
    List Callback × List CbEvent × List Notif :=
  if message.status == 200 then
    let notifs :=
      if message.action == ACTION_CONNECT then [Notif.streamData message] else []
    let out := resolveCallbacks message.stream message.data cbs
    (out.callbacks, out.events, notifs)
  else
    let error : ClientError := ⟨toString message.status, some message⟩
    let out := rejectCallbacks message.stream error cbs
    (out.callbacks, out.events, [Notif.error error])

/-- The reconnect-relevant options (source: `Options` plus `DEFAULT_OPTS`). -/
structure Options where
  autoReconnect : Bool
  reconnectInterval : Nat
  reconnectIntervalMultiplier : Nat
deriving DecidableEq, Repr

/-- Source: the reconnect-relevant fields of `DEFAULT_OPTS`
(`autoReconnect: true, reconnectInterval: 2000, reconnectIntervalMultiplier: 1`). -/
def DEFAULT_OPTS : Options := ⟨true, 2000, 1⟩

/-- The mutable state of a `ChakraClient`: options, the reconnect counter
(`reconnectTries`), the `destroyed` and `connected` flags, the number of
transport sockets opened so far (each `new WebSocket(...)` in `connect()`
increments it), the callback registry, and the id to give the next
registered pending call. -/
structure ClientState where
  opts : Options
  reconnectTries : Nat
  destroyed : Bool
  connected : Bool
  socketsOpened : Nat
  callbacks : List Callback
  nextId : Nat
deriving DecidableEq, Repr

/-- A fresh client (source: field initializers of `ChakraClient`). -/
def initialState (opts : Options) : ClientState :=
  { opts := opts, reconnectTries := 0, destroyed := false, connected := false,
    socketsOpened := 0, callbacks := [], nextId := 0 }

/-- The error used by `watchStream` to supersede an older pending call for
the same stream name (source: `new ClientError('Request was cancelled
because a new one was made')`). -/
def supersededError : ClientError :=
  ⟨"Request was cancelled because a new one was made", none⟩

/-- One atomic unit of control of the client's single-threaded event flow:
an inbound frame, a socket error/close/open event, the body of `connect()`
up to its `await` (which opens a new socket), the firing of a scheduled
reconnect timer, and the registry step of `watchStream` (supersede older
pending calls for the name, then register a new one). -/
inductive ClientOp where
  | inbound (m : Message)
  | socketErrorEvt (e : String)
  | sockClose (code : Int)
  | sockOpen
  | connectCall
  | timerFire
  | watchRegister (name : String)
deriving DecidableEq, Repr

/-- The output of one step: the new state, the pending-call handler
invocations, the notifications emitted, and the delays of any reconnect
timers scheduled during the step. -/
structure StepOut where
  state : ClientState
  events : List CbEvent
  notifs : List Notif
  scheds : List Nat
deriving DecidableEq, Repr

/-- Small-step semantics of the client, one case per `ClientOp`:
* `inbound m` — the socket `message` listener (`registerEvents`);
* `socketErrorEvt` — the socket `error` listener re-emits the error;
* `sockClose` — the socket `close` listener: clears `connected`, emits
  `close`, and (when `autoReconnect` and not `destroyed`) schedules a
  reconnect after `++reconnectTries * reconnectInterval *
  reconnectIntervalMultiplier` and records the incremented counter;
* `sockOpen` — the tail of `connect()` after `await onceOpen()`: resets
  `reconnectTries`, sets `connected`, emits `connect`;
* `connectCall` — the head of `connect()`: opens a new transport socket;
* `timerFire` — the scheduled reconnect callback: calls `connect()`
  unless `destroyed`;
* `watchRegister name` — `watchStream`'s registry effect once connected:
  reject older pending calls for `name` with `supersededError`, then push
  a new entry for `name`. -/
def step (s : ClientState) (op : ClientOp) : StepOut :=
  match op with
  | .inbound m =>
    let (cbs, evs, notifs) := onMessage m s.callbacks
    ⟨{ s with callbacks := cbs }, evs, notifs, []⟩
  | .socketErrorEvt e => ⟨s, [], [Notif.socketError e], []⟩
  | .sockClose code =>
    let s1 := { s with connected := false }
    if s1.opts.autoReconnect && !s1.destroyed then
      ⟨{ s1 with reconnectTries := s1.reconnectTries + 1 }, [], [Notif.close code],
       [(s1.reconnectTries + 1) * s1.opts.reconnectInterval *
          s1.opts.reconnectIntervalMultiplier]⟩
    else
      ⟨s1, [], [Notif.close code], []⟩
  | .sockOpen =>
    ⟨{ s with reconnectTries := 0, connected := true }, [], [Notif.connect], []⟩
  | .connectCall =>
    ⟨{ s with socketsOpened := s.socketsOpened + 1 }, [], [], []⟩
  | .timerFire =>
    if s.destroyed then ⟨s, [], [], []⟩
    else ⟨{ s with socketsOpened := s.socketsOpened + 1 }, [], [], []⟩
  | .watchRegister name =>
    let out := rejectCallbacks name supersededError s.callbacks
    ⟨{ s with callbacks := out.callbacks ++ [Callback.mk name s.nextId],
              nextId := s.nextId + 1 },
     out.events, [], []⟩

/-- The output of running a sequence of steps: final state plus the
concatenated handler invocations, notifications and scheduled delays. -/
structure RunOut where
  state : ClientState
  events : List CbEvent
  notifs : List Notif
  scheds : List Nat
deriving DecidableEq, Repr

/-- Run a sequence of `ClientOp`s from a state, concatenating outputs. -/
def run (s : ClientState) : List ClientOp → RunOut
  | [] => ⟨s, [], [], []⟩
  | op :: ops =>
    let o := step s op
    let r := run o.state ops
    ⟨r.state, o.events ++ r.events, o.notifs ++ r.notifs, o.scheds ++ r.scheds⟩

/-- The id of the pending call whose handler this event invoked. -/
def CbEvent.callId : CbEvent → Nat
  | .resolved id _ => id
  | .rejected id _ => id

/-- How many handler invocations for the pending call `id` a trace holds. -/
def countId (id : Nat) (evs : List CbEvent) : Nat :=
  evs.countP (fun e => e.callId == id)

/-- How many registry entries for the pending call `id` an array holds. -/
def cnt (id : Nat) (cbs : List Callback) : Nat :=
  cbs.countP (fun c => c.id == id)

theorem cnt_filter_add (id : Nat) (p : Callback → Bool) (cbs : List Callback) :
    cnt id (cbs.filter p) + cnt id (cbs.filter (fun c => !(p c))) = cnt id cbs := by
  induction cbs with
  | nil => rfl
  | cons c rest ih =>
    by_cases hp : p c <;> by_cases hi : c.id = id <;>
      simp [cnt, List.filter_cons, List.countP_cons, hp, hi] at ih ⊢ <;> omega

theorem cnt_eq_zero_of_ge (id : Nat) (cbs : List Callback) (n : Nat)
    (h : ∀ cb ∈ cbs, cb.id < n) (hn : n ≤ id) : cnt id cbs = 0 := by
  rw [cnt, List.countP_eq_zero]
  intro c hc
  have := h c hc
  simp
  omega

theorem cnt_append (id : Nat) (a b : List Callback) :
    cnt id (a ++ b) = cnt id a + cnt id b := by
  simp [cnt, List.countP_append]

theorem countId_map_resolved (id : Nat) (d : SessionDescription)
    (cbs : List Callback) :
    countId id (cbs.map (fun c => CbEvent.resolved c.id d)) = cnt id cbs := by
  induction cbs with
  | nil => rfl
  | cons c rest ih =>
    simp [countId, cnt, List.countP_cons, CbEvent.callId] at ih ⊢
    omega

theorem countId_map_rejected (id : Nat) (e : ClientError)
    (cbs : List Callback) :
    countId id (cbs.map (fun c => CbEvent.rejected c.id e)) = cnt id cbs := by
  induction cbs with
  | nil => rfl
  | cons c rest ih =>
    simp [countId, cnt, List.countP_cons, CbEvent.callId] at ih ⊢
    omega

theorem countId_append (id : Nat) (a b : List CbEvent) :
    countId id (a ++ b) = countId id a + countId id b := by
  simp [countId, List.countP_append]

theorem cnt_single (id j : Nat) (name : String) :
    cnt id [Callback.mk name j] = if j = id then 1 else 0 := by
  by_cases h : j = id <;> simp [cnt, List.countP_cons, h]

theorem fire_remove (id nid : Nat) (A : List Callback) (p : Callback → Bool)
    (hcnt : cnt id A ≤ 1) (hlt : ∀ cb ∈ A, cb.id < nid) :
    cnt id (A.filter p) +
      (if cnt id (A.filter (fun c => !(p c))) ≠ 0 ∨ nid ≤ id then 1 else 0)
      ≤ if cnt id A ≠ 0 ∨ nid ≤ id then 1 else 0 := by
  have hsum := cnt_filter_add id p A
  by_cases hn : nid ≤ id
  · have he0 : cnt id (A.filter p) = 0 :=
      cnt_eq_zero_of_ge id _ nid (fun cb hcb => hlt cb (List.mem_of_mem_filter hcb)) hn
    split_ifs <;> omega
  · split_ifs <;> omega

theorem fire_register (id nid : Nat) (A : List Callback) (p : Callback → Bool)
    (name : String)
    (hcnt : cnt id A ≤ 1) (hlt : ∀ cb ∈ A, cb.id < nid) :
    cnt id (A.filter p) +
      (if cnt id (A.filter (fun c => !(p c)) ++ [Callback.mk name nid]) ≠ 0 ∨
          nid + 1 ≤ id then 1 else 0)
      ≤ if cnt id A ≠ 0 ∨ nid ≤ id then 1 else 0 := by
  have hsum := cnt_filter_add id p A
  have happ : cnt id (A.filter (fun c => !(p c)) ++ [Callback.mk name nid]) =
      cnt id (A.filter (fun c => !(p c))) + (if nid = id then 1 else 0) := by
    rw [cnt_append, cnt_single]
  by_cases hn : nid ≤ id
  · have he0 : cnt id (A.filter p) = 0 :=
      cnt_eq_zero_of_ge id _ nid (fun cb hcb => hlt cb (List.mem_of_mem_filter hcb)) hn
    have hk0 : cnt id (A.filter (fun c => !(p c))) = 0 :=
      cnt_eq_zero_of_ge id _ nid (fun cb hcb => hlt cb (List.mem_of_mem_filter hcb)) hn
    rw [happ]
    split_ifs <;> omega
  · rw [happ]
    split_ifs <;> omega

/-- Registry well-formedness maintained by the client: each pending-call id
occurs at most once in the array, and every id is below the next fresh id. -/
def RegInv (s : ClientState) : Prop :=
  (∀ id, cnt id s.callbacks ≤ 1) ∧ ∀ cb ∈ s.callbacks, cb.id < s.nextId

/-- Upper bound on how many terminal callbacks the pending call `id` can
still receive from state `s`: one if it is currently registered or its id
has not been handed out yet, zero otherwise. -/
def fireBound (s : ClientState) (id : Nat) : Nat :=
  if cnt id s.callbacks ≠ 0 ∨ s.nextId ≤ id then 1 else 0

/-- One client step preserves registry well-formedness and spends at most
the remaining firing budget of every pending-call id. -/
theorem step_fire (s : ClientState) (op : ClientOp) (hInv : RegInv s) :
    RegInv (step s op).state ∧
      ∀ id, countId id (step s op).events + fireBound (step s op).state id ≤
        fireBound s id := by
  obtain ⟨hcnt, hlt⟩ := hInv
  cases op with
  | inbound m =>
    by_cases hs : (m.status == 200) = true
    · simp only [step, onMessage, hs, if_true, resolveCallbacks_eq]
      refine ⟨⟨?_, ?_⟩, ?_⟩
      · intro j
        have h1 := cnt_filter_add j (fun c => c.stream == m.stream) s.callbacks
        have h2 := hcnt j
        dsimp only
        omega
      · intro cb hcb
        exact hlt cb (List.mem_of_mem_filter hcb)
      · intro id
        have hmap := countId_map_resolved id m.data
          (s.callbacks.filter (fun c => c.stream == m.stream))
        simp only [fireBound, hmap]
        dsimp only
        exact fire_remove id s.nextId s.callbacks
          (fun c => c.stream == m.stream) (hcnt id) hlt
    · simp only [step, onMessage, if_neg hs, rejectCallbacks_eq]
      refine ⟨⟨?_, ?_⟩, ?_⟩
      · intro j
        have h1 := cnt_filter_add j (fun c => c.stream == m.stream) s.callbacks
        have h2 := hcnt j
        dsimp only
        omega
      · intro cb hcb
        exact hlt cb (List.mem_of_mem_filter hcb)
      · intro id
        have hmap := countId_map_rejected id ⟨toString m.status, some m⟩
          (s.callbacks.filter (fun c => c.stream == m.stream))
        simp only [fireBound, hmap]
        dsimp only
        exact fire_remove id s.nextId s.callbacks
          (fun c => c.stream == m.stream) (hcnt id) hlt
  | socketErrorEvt e =>
    exact ⟨⟨hcnt, hlt⟩, fun id => by simp [step, countId, fireBound]⟩
  | sockClose code =>
    simp only [step]
    split_ifs with h
    · exact ⟨⟨hcnt, hlt⟩, fun id => by simp [countId, fireBound]⟩
    · exact ⟨⟨hcnt, hlt⟩, fun id => by simp [countId, fireBound]⟩
  | sockOpen =>
    exact ⟨⟨hcnt, hlt⟩, fun id => by simp [step, countId, fireBound]⟩
  | connectCall =>
    exact ⟨⟨hcnt, hlt⟩, fun id => by simp [step, countId, fireBound]⟩
  | timerFire =>
    simp only [step]
    split_ifs with h
    · exact ⟨⟨hcnt, hlt⟩, fun id => by simp [countId, fireBound]⟩
    · exact ⟨⟨hcnt, hlt⟩, fun id => by simp [countId, fireBound]⟩
  | watchRegister name =>
    simp only [step, rejectCallbacks_eq]
    refine ⟨⟨?_, ?_⟩, ?_⟩
    · intro j
      have h1 := cnt_filter_add j (fun c => c.stream == name) s.callbacks
      have h2 := hcnt j
      rw [cnt_append, cnt_single]
      by_cases hj : s.nextId = j
      · have h4 : cnt j (s.callbacks.filter (fun c => !(c.stream == name))) = 0 := by
          refine cnt_eq_zero_of_ge j _ s.nextId
            (fun cb hcb => hlt cb (List.mem_of_mem_filter hcb)) ?_
          omega
        rw [if_pos hj]
        omega
      · rw [if_neg hj]
        omega
    · intro cb hcb
      rcases List.mem_append.mp hcb with hmem | hmem
      · have := hlt cb (List.mem_of_mem_filter hmem)
        dsimp only
        omega
      · have hcb2 : cb = Callback.mk name s.nextId := by simpa using hmem
        rw [hcb2]
        dsimp only
        omega
    · intro id
      have hmap := countId_map_rejected id supersededError
        (s.callbacks.filter (fun c => c.stream == name))
      simp only [fireBound, hmap]
      dsimp only
      exact fire_register id s.nextId s.callbacks
        (fun c => c.stream == name) name (hcnt id) hlt

theorem run_nil (s : ClientState) : run s [] = ⟨s, [], [], []⟩ := rfl

theorem run_cons (s : ClientState) (op : ClientOp) (ops : List ClientOp) :
    run s (op :: ops) =
      ⟨(run (step s op).state ops).state,
       (step s op).events ++ (run (step s op).state ops).events,
       (step s op).notifs ++ (run (step s op).state ops).notifs,
       (step s op).scheds ++ (run (step s op).state ops).scheds⟩ := rfl

/-- Running any op sequence from a well-formed state fires each pending-call
id at most its remaining budget. -/
theorem run_fire (ops : List ClientOp) :
    ∀ s : ClientState, RegInv s → ∀ id,
      countId id (run s ops).events ≤ fireBound s id := by
  induction ops with
  | nil =>
    intro s hInv id
    simp [run_nil, countId]
  | cons op rest ih =>
    intro s hInv id
    obtain ⟨hInv2, hfire⟩ := step_fire s op hInv
    have hrest := ih (step s op).state hInv2 id
    have hstep := hfire id
    rw [run_cons]
    dsimp only
    rw [countId_append]
    omega

theorem regInv_initial (opts : Options) : RegInv (initialState opts) := by
  constructor
  · intro j
    simp [cnt, initialState]
  · intro cb hcb
    simp [initialState] at hcb

/-- C1 (amended): over the whole lifetime of the client — any sequence of
inbound frames, socket events, reconnects and watchStream registrations
from a fresh client — every pending call's handlers are invoked at most
once in total: never both resolve and reject, never twice, also across a
transport close and reconnect. (Zero invocations are possible: see the
counterexample theorem.) -/
theorem pendingCall_at_most_once (opts : Options) (ops : List ClientOp)
    (id : Nat) :
    countId id (run (initialState opts) ops).events ≤ 1 := by
  have h := run_fire ops (initialState opts) (regInv_initial opts) id
  have hfb : fireBound (initialState opts) id = 1 := by
    simp [fireBound, initialState]
  omega

/-- C1 counterexample: a pending call is registered for stream "A"; the
transport then closes and the client reconnects (the reconnect timer fires
and the new socket opens). No terminal callback is ever invoked for the
pending call — zero, not exactly one — and the call is still registered
afterwards, refuting "never zero times ... even across a transport close
and reconnect". -/
theorem pendingCall_zero_callbacks_cex :
    (run (initialState DEFAULT_OPTS)
        [ClientOp.watchRegister "A", ClientOp.sockClose 1000,
         ClientOp.timerFire, ClientOp.sockOpen]).events = [] ∧
    (run (initialState DEFAULT_OPTS)
        [ClientOp.watchRegister "A", ClientOp.sockClose 1000,
         ClientOp.timerFire, ClientOp.sockOpen]).state.callbacks =
      [Callback.mk "A" 0] := by
  simp [run_cons, run_nil, step, rejectCallbacks_eq, initialState, DEFAULT_OPTS,
    supersededError]

theorem filter_pos_of_filter_neg {α : Type} (p : α → Bool) (l : List α) :
    (l.filter (fun a => !(p a))).filter p = [] := by
  rw [List.filter_eq_nil_iff]
  intro a ha
  have := (List.mem_filter.mp ha).2
  simp at this
  simp [this]

theorem filter_neg_idem {α : Type} (p : α → Bool) (l : List α) :
    (l.filter (fun a => !(p a))).filter (fun a => !(p a)) =
      l.filter (fun a => !(p a)) :=
  List.filter_eq_self.mpr (fun a ha => (List.mem_filter.mp ha).2)

/-- C2: after `resolveCallbacks(s, d)` or `rejectCallbacks(s, e)` the
registry holds zero entries for stream `s`; repeating the same operation is
a no-op (the array is unchanged and no handler is invoked); the traversal
interleaved with splice-removal visits every entry exactly once, neither
skipping nor double-visiting; and every matching entry's handler is invoked
exactly once during the operation, in the original order. -/
theorem registry_cleanup_exact (s : String) (d : SessionDescription)
    (e : ClientError) (cbs : List Callback) :
    ((resolveCallbacks s d cbs).callbacks.filter (fun c => c.stream == s) = [] ∧
     resolveCallbacks s d (resolveCallbacks s d cbs).callbacks =
       ⟨(resolveCallbacks s d cbs).callbacks, [],
        (resolveCallbacks s d cbs).callbacks⟩ ∧
     (resolveCallbacks s d cbs).visited = cbs ∧
     (resolveCallbacks s d cbs).events =
       (cbs.filter (fun c => c.stream == s)).map
         (fun c => CbEvent.resolved c.id d)) ∧
    ((rejectCallbacks s e cbs).callbacks.filter (fun c => c.stream == s) = [] ∧
     rejectCallbacks s e (rejectCallbacks s e cbs).callbacks =
       ⟨(rejectCallbacks s e cbs).callbacks, [],
        (rejectCallbacks s e cbs).callbacks⟩ ∧
     (rejectCallbacks s e cbs).visited = cbs ∧
     (rejectCallbacks s e cbs).events =
       (cbs.filter (fun c => c.stream == s)).map
         (fun c => CbEvent.rejected c.id e)) := by
  refine ⟨⟨?_, ?_, ?_, ?_⟩, ⟨?_, ?_, ?_, ?_⟩⟩
  · rw [resolveCallbacks_eq]
    exact filter_pos_of_filter_neg (fun c => c.stream == s) cbs
  · rw [resolveCallbacks_eq, resolveCallbacks_eq]
    dsimp only
    simp only [FilterOut.mk.injEq]
    refine ⟨filter_neg_idem _ cbs, ?_, trivial⟩
    rw [filter_pos_of_filter_neg (fun c => c.stream == s) cbs]
    rfl
  · rw [resolveCallbacks_eq]
  · rw [resolveCallbacks_eq]
  · rw [rejectCallbacks_eq]
    exact filter_pos_of_filter_neg (fun c => c.stream == s) cbs
  · rw [rejectCallbacks_eq, rejectCallbacks_eq]
    dsimp only
    simp only [FilterOut.mk.injEq]
    refine ⟨filter_neg_idem _ cbs, ?_, trivial⟩
    rw [filter_pos_of_filter_neg (fun c => c.stream == s) cbs]
    rfl
  · rw [rejectCallbacks_eq]
  · rw [rejectCallbacks_eq]

/-- C10: `resolveCallbacks`/`rejectCallbacks` leave every registered
callback whose stream differs from `s` in the registry with its handlers
unchanged: the surviving array is exactly the order-preserving sublist of
the original consisting of the entries whose stream is not `s`. -/
theorem registry_frame (s : String) (d : SessionDescription) (e : ClientError)
    (cbs : List Callback) :
    (resolveCallbacks s d cbs).callbacks =
        cbs.filter (fun c => !(c.stream == s)) ∧
    (rejectCallbacks s e cbs).callbacks =
        cbs.filter (fun c => !(c.stream == s)) ∧
    (resolveCallbacks s d cbs).callbacks.Sublist cbs ∧
    (rejectCallbacks s e cbs).callbacks.Sublist cbs := by
  refine ⟨?_, ?_, ?_, ?_⟩
  · rw [resolveCallbacks_eq]
  · rw [rejectCallbacks_eq]
  · rw [resolveCallbacks_eq]
    exact List.filter_sublist cbs
  · rw [rejectCallbacks_eq]
    exact List.filter_sublist cbs

/-- C3: for an inbound message with status ≠ 200 the dispatcher constructs
a `ClientError` carrying the numeric status (stringified, as the error
message) and the original message, emits exactly one general `error`
notification, and rejects exactly the pending calls registered for the
message's stream with that error; and when no pending call for that stream
exists, the registry is returned unchanged and only the `error`
notification is emitted. -/
theorem dispatch_non200 (m : Message) (cbs : List Callback)
    (h : m.status ≠ 200) :
    onMessage m cbs =
      (cbs.filter (fun c => !(c.stream == m.stream)),
       (cbs.filter (fun c => c.stream == m.stream)).map
         (fun c => CbEvent.rejected c.id ⟨toString m.status, some m⟩),
       [Notif.error ⟨toString m.status, some m⟩]) ∧
    (cbs.filter (fun c => c.stream == m.stream) = [] →
      onMessage m cbs = (cbs, [], [Notif.error ⟨toString m.status, some m⟩])) := by
  have hb : ¬((m.status == 200) = true) := by
    simpa using h
  constructor
  · simp only [onMessage, if_neg hb, rejectCallbacks_eq]
  · intro hnone
    have hall : ∀ c ∈ cbs, ¬((c.stream == m.stream) = true) :=
      List.filter_eq_nil_iff.mp hnone
    have hkeep : cbs.filter (fun c => !(c.stream == m.stream)) = cbs := by
      refine List.filter_eq_self.mpr (fun c hc => ?_)
      have := hall c hc
      simpa using this
    simp only [onMessage, if_neg hb, rejectCallbacks_eq, hkeep, hnone,
      List.map_nil]

/-- Concrete witness for C3: a 404 frame for "s1" against a registry
holding a pending call for "s1" and one for "s2" rejects exactly the "s1"
entry with an error exposing status 404 and the original message, leaves
the "s2" entry, and emits one general error notification; the same frame
against a registry with no "s1" entry leaves the registry unchanged. -/
theorem dispatch_non200_witness :
    onMessage (Message.mk "Offer" 404 "s1" (SessionDescription.mk "offer" "v=0" none))
        [Callback.mk "s1" 0, Callback.mk "s2" 1] =
      ([Callback.mk "s2" 1],
       [CbEvent.rejected 0
          ⟨"404", some (Message.mk "Offer" 404 "s1" (SessionDescription.mk "offer" "v=0" none))⟩],
       [Notif.error
          ⟨"404", some (Message.mk "Offer" 404 "s1" (SessionDescription.mk "offer" "v=0" none))⟩]) ∧
    onMessage (Message.mk "Offer" 404 "s1" (SessionDescription.mk "offer" "v=0" none))
        [Callback.mk "s2" 1] =
      ([Callback.mk "s2" 1],
       [],
       [Notif.error
          ⟨"404", some (Message.mk "Offer" 404 "s1" (SessionDescription.mk "offer" "v=0" none))⟩]) := by
  constructor
  · rw [(dispatch_non200 (Message.mk "Offer" 404 "s1"
      (SessionDescription.mk "offer" "v=0" none))
      [Callback.mk "s1" 0, Callback.mk "s2" 1] (by decide)).1]
    have h404 : toString (404 : Int) = "404" := rfl
    rw [h404]
    simp
  · rw [(dispatch_non200 (Message.mk "Offer" 404 "s1"
      (SessionDescription.mk "offer" "v=0" none))
      [Callback.mk "s2" 1] (by decide)).2 (by simp)]
    have h404 : toString (404 : Int) = "404" := rfl
    rw [h404]

/-- C4: for an inbound message with status 200, the dispatcher resolves
exactly the pending calls registered for the message's stream with the
message's payload; when the action is the connect action it additionally
emits one `stream-data` notification, and for any other action it emits no
notification for that frame. -/
theorem dispatch_200 (m : Message) (cbs : List Callback)
    (h : m.status = 200) :
    onMessage m cbs =
      (cbs.filter (fun c => !(c.stream == m.stream)),
       (cbs.filter (fun c => c.stream == m.stream)).map
         (fun c => CbEvent.resolved c.id m.data),
       if m.action = ACTION_CONNECT then [Notif.streamData m] else []) := by
  have hb : (m.status == 200) = true := by
    simpa using h
  by_cases ha : m.action = ACTION_CONNECT
  · have hab : (m.action == ACTION_CONNECT) = true := by simpa using ha
    simp only [onMessage, hb, if_true, hab, resolveCallbacks_eq, ha,
      beq_self_eq_true]
  · have hab : ¬((m.action == ACTION_CONNECT) = true) := by simpa using ha
    simp only [onMessage, hb, if_true, if_neg hab, resolveCallbacks_eq,
      if_neg ha]

/-- Concrete witness for C4: a status-200 "Connect" frame for "s1" both
emits a `stream-data` notification and resolves the pending call for "s1"
with its payload; a status-200 frame with a different action resolves the
pending call alone, with no notification. -/
theorem dispatch_200_witness :
    onMessage (Message.mk "Connect" 200 "s1" (SessionDescription.mk "answer" "v=0" none))
        [Callback.mk "s1" 0] =
      ([], [CbEvent.resolved 0 (SessionDescription.mk "answer" "v=0" none)],
       [Notif.streamData
          (Message.mk "Connect" 200 "s1" (SessionDescription.mk "answer" "v=0" none))]) ∧
    onMessage (Message.mk "Offer" 200 "s1" (SessionDescription.mk "answer" "v=0" none))
        [Callback.mk "s1" 0] =
      ([], [CbEvent.resolved 0 (SessionDescription.mk "answer" "v=0" none)], []) := by
  constructor
  · rw [dispatch_200 (Message.mk "Connect" 200 "s1"
      (SessionDescription.mk "answer" "v=0" none)) [Callback.mk "s1" 0] (by decide)]
    simp [ACTION_CONNECT]
  · rw [dispatch_200 (Message.mk "Offer" 200 "s1"
      (SessionDescription.mk "answer" "v=0" none)) [Callback.mk "s1" 0] (by decide)]
    simp [ACTION_CONNECT]

theorem run_closes_scheds (code : Int) :
    ∀ (k : Nat) (s : ClientState), s.destroyed = false →
      s.opts.autoReconnect = true →
      (run s (List.replicate k (ClientOp.sockClose code))).scheds =
        (List.range k).map
          (fun j => (s.reconnectTries + j + 1) * s.opts.reconnectInterval *
            s.opts.reconnectIntervalMultiplier) := by
  intro k
  induction k with
  | zero =>
    intro s hd ha
    simp [run_nil]
  | succ k ih =>
    intro s hd ha
    rw [List.replicate_succ, run_cons]
    dsimp only
    have hcond : ({ s with connected := false }.opts.autoReconnect &&
        !{ s with connected := false }.destroyed) = true := by
      dsimp only
      rw [ha, hd]
      rfl
    simp only [step, hcond, if_true]
    rw [ih _ (by exact hd) (by exact ha)]
    dsimp only
    rw [List.range_succ_eq_map, List.map_cons, List.map_map]
    have hfun : ((fun j => (s.reconnectTries + j + 1) * s.opts.reconnectInterval *
          s.opts.reconnectIntervalMultiplier) ∘ Nat.succ) =
        (fun j => (s.reconnectTries + 1 + j + 1) * s.opts.reconnectInterval *
          s.opts.reconnectIntervalMultiplier) := by
      funext j
      have : s.reconnectTries + Nat.succ j + 1 = s.reconnectTries + 1 + j + 1 := by
        omega
      simp [Function.comp, this]
    rw [hfun]
    simp

/-- C5: with `autoReconnect` enabled and the client not destroyed, the k-th
consecutive Close since the last successful Open schedules the next
`connect()` at delay `k * reconnectInterval * reconnectIntervalMultiplier`
(the scheduled delays after an Open followed by k consecutive Closes are
exactly `[1*b*m, 2*b*m, ..., k*b*m]`), and every successful Open resets
the reconnect counter to 0, restarting the schedule from the base delay. -/
theorem reconnect_backoff (s : ClientState) (k : Nat) (code : Int)
    (hd : s.destroyed = false) (ha : s.opts.autoReconnect = true) :
    (run s (ClientOp.sockOpen ::
        List.replicate k (ClientOp.sockClose code))).scheds =
      (List.range k).map
        (fun j => (j + 1) * s.opts.reconnectInterval *
          s.opts.reconnectIntervalMultiplier) ∧
    (step s ClientOp.sockOpen).state.reconnectTries = 0 := by
  constructor
  · rw [run_cons]
    dsimp only [step]
    rw [run_closes_scheds code k _ (by exact hd) (by exact ha)]
    dsimp only
    simp
  · rfl

/-- Concrete witness for C5: from a fresh client with the default options
(`reconnectInterval` 2000, multiplier 1), an Open followed by three
consecutive Closes schedules reconnects at delays 2000, 4000, 6000. -/
theorem reconnect_backoff_witness :
    (run (initialState DEFAULT_OPTS)
        (ClientOp.sockOpen ::
          List.replicate 3 (ClientOp.sockClose 1006))).scheds =
      [2000, 4000, 6000] ∧
    (step (initialState DEFAULT_OPTS) ClientOp.sockOpen).state.reconnectTries = 0 := by
  obtain ⟨h1, h2⟩ := reconnect_backoff (initialState DEFAULT_OPTS) 3 1006 rfl rfl
  constructor
  · rw [h1]
    rfl
  · exact h2

/-- C6: issuing `watchStream`'s registry step twice in immediate succession
for the same stream name: the second step first delivers the superseded
error to the first call's reject handler and only then registers its own
pending call, so afterwards only the second call is registered; a
subsequent inbound 200 response for that stream name resolves only the
second call, and the full handler trace is exactly the first call's single
rejection followed by the second call's single resolution. -/
theorem watch_twice_superseded (opts : Options) (n : String) (m : Message)
    (hs : m.status = 200) (hstream : m.stream = n) :
    (run (initialState opts)
        [ClientOp.watchRegister n, ClientOp.watchRegister n]).events =
      [CbEvent.rejected 0 supersededError] ∧
    (run (initialState opts)
        [ClientOp.watchRegister n, ClientOp.watchRegister n]).state.callbacks =
      [Callback.mk n 1] ∧
    (run (initialState opts)
        [ClientOp.watchRegister n, ClientOp.watchRegister n,
         ClientOp.inbound m]).events =
      [CbEvent.rejected 0 supersededError, CbEvent.resolved 1 m.data] := by
  have hb : (m.status == 200) = true := by simpa using hs
  refine ⟨?_, ?_, ?_⟩
  · simp [run_cons, run_nil, step, rejectCallbacks_eq, initialState]
  · simp [run_cons, run_nil, step, rejectCallbacks_eq, initialState]
  · simp [run_cons, run_nil, step, rejectCallbacks_eq, resolveCallbacks_eq,
      onMessage, hb, initialState, hstream]

/-- Concrete witness for C6: two immediate `watchStream("A")` registry steps
followed by a 200 response for "A": the first call is rejected with the
superseded error, the second alone is resolved with the response payload. -/
theorem watch_twice_superseded_witness :
    (run (initialState DEFAULT_OPTS)
        [ClientOp.watchRegister "A", ClientOp.watchRegister "A",
         ClientOp.inbound (Message.mk "Connect" 200 "A"
           (SessionDescription.mk "answer" "v=0" none))]).events =
      [CbEvent.rejected 0 supersededError,
       CbEvent.resolved 1 (SessionDescription.mk "answer" "v=0" none)] :=
  (watch_twice_superseded DEFAULT_OPTS "A"
    (Message.mk "Connect" 200 "A" (SessionDescription.mk "answer" "v=0" none))
    (by decide) rfl).2.2

/-- A completion action on the promise a `connect()` call returns. -/
inductive HandleAction where
  | resolve
  | reject
deriving DecidableEq, Repr

/-- Source: `onceOpen` inside `connect()`. The returned promise's executor
captures only `resolve`; the handler is attached to the socket's `open`
event and removes itself after firing. `active` is whether the listener is
still attached while the socket's event sequence is processed. -/
def onceOpenActions : List ClientOp → Bool → List HandleAction
  | [], _ => []
  | ClientOp.sockOpen :: rest, true =>
    HandleAction.resolve :: onceOpenActions rest false
  | _ :: rest, active => onceOpenActions rest active

theorem onceOpenActions_inactive (evts : List ClientOp) :
    onceOpenActions evts false = [] := by
  induction evts with
  | nil => rfl
  | cons op rest ih => cases op <;> exact ih

theorem onceOpenActions_spec (evts : List ClientOp) :
    onceOpenActions evts true =
      if ClientOp.sockOpen ∈ evts then [HandleAction.resolve] else [] := by
  induction evts with
  | nil => rfl
  | cons op rest ih =>
    cases op with
    | sockOpen =>
      have h1 : onceOpenActions (ClientOp.sockOpen :: rest) true =
          HandleAction.resolve :: onceOpenActions rest false := rfl
      rw [h1, onceOpenActions_inactive]
      simp
    | inbound m =>
      have h1 : onceOpenActions (ClientOp.inbound m :: rest) true =
          onceOpenActions rest true := rfl
      rw [h1, ih]
      simp
    | socketErrorEvt e =>
      have h1 : onceOpenActions (ClientOp.socketErrorEvt e :: rest) true =
          onceOpenActions rest true := rfl
      rw [h1, ih]
      simp
    | sockClose code =>
      have h1 : onceOpenActions (ClientOp.sockClose code :: rest) true =
          onceOpenActions rest true := rfl
      rw [h1, ih]
      simp
    | connectCall =>
      have h1 : onceOpenActions (ClientOp.connectCall :: rest) true =
          onceOpenActions rest true := rfl
      rw [h1, ih]
      simp
    | timerFire =>
      have h1 : onceOpenActions (ClientOp.timerFire :: rest) true =
          onceOpenActions rest true := rfl
      rw [h1, ih]
      simp
    | watchRegister name =>
      have h1 : onceOpenActions (ClientOp.watchRegister name :: rest) true =
          onceOpenActions rest true := rfl
      rw [h1, ih]
      simp

/-- C7: the completion handle returned by `connect()` resolves exactly when
the socket's Open event is observed, and completes exactly once per call:
over any socket event sequence it receives the single resolve action
exactly when an Open occurs, never more than one action, and never a
rejection (its executor captures no reject); a failed attempt surfaces only
through the Close path, which (auto-reconnect enabled, not destroyed)
schedules a reconnect rather than rejecting the handle. -/
theorem connect_resolves_once (evts : List ClientOp) (s : ClientState)
    (code : Int) (hd : s.destroyed = false)
    (ha : s.opts.autoReconnect = true) :
    (onceOpenActions evts true =
      if ClientOp.sockOpen ∈ evts then [HandleAction.resolve] else []) ∧
    HandleAction.reject ∉ onceOpenActions evts true ∧
    (onceOpenActions evts true).length ≤ 1 ∧
    (step s (ClientOp.sockClose code)).scheds =
      [(s.reconnectTries + 1) * s.opts.reconnectInterval *
        s.opts.reconnectIntervalMultiplier] := by
  refine ⟨onceOpenActions_spec evts, ?_, ?_, ?_⟩
  · rw [onceOpenActions_spec evts]
    split_ifs <;> simp
  · rw [onceOpenActions_spec evts]
    split_ifs <;> simp
  · have hcond : ({ s with connected := false }.opts.autoReconnect &&
        !{ s with connected := false }.destroyed) = true := by
      dsimp only
      rw [ha, hd]
      rfl
    simp only [step, hcond, if_true]

/-- Concrete witness for C7: over the event sequence close-open-open the
connect handle receives exactly one resolve and no reject, and from a fresh
client a close schedules one reconnect (at the base delay). -/
theorem connect_resolves_once_witness :
    (onceOpenActions [ClientOp.sockClose 1006, ClientOp.sockOpen,
        ClientOp.sockOpen] true = [HandleAction.resolve]) ∧
    HandleAction.reject ∉ onceOpenActions [ClientOp.sockClose 1006,
        ClientOp.sockOpen, ClientOp.sockOpen] true ∧
    (step (initialState DEFAULT_OPTS) (ClientOp.sockClose 1006)).scheds =
      [2000] := by
  obtain ⟨h1, h2, h3, h4⟩ := connect_resolves_once
    [ClientOp.sockClose 1006, ClientOp.sockOpen, ClientOp.sockOpen]
    (initialState DEFAULT_OPTS) 1006 rfl rfl
  refine ⟨?_, h2, ?_⟩
  · rw [h1]
    rfl
  · rw [h4]
    rfl

/-- The connection guard at the head of `watchStream`:
`if (!this.connected) await this.connect()` — `connect()` (and with it a
new transport socket) happens only when the client is not connected. -/
def watchEnsureConnected (s : ClientState) : ClientState :=
  if s.connected then s else (step s ClientOp.connectCall).state

/-- C8 counterexample: from a state that is already connected (Open),
calling `connect()` opens another transport socket — the source's
`connect()` has no "already Connecting/Open" guard, refuting the claim at
this concrete input. -/
theorem connect_no_guard_cex :
    ({ initialState DEFAULT_OPTS with connected := true }).connected = true ∧
    (step { initialState DEFAULT_OPTS with connected := true }
        ClientOp.connectCall).state.socketsOpened =
      { initialState DEFAULT_OPTS with connected := true }.socketsOpened + 1 :=
  ⟨rfl, rfl⟩

/-- C8 (amended): `connect()` itself unconditionally opens a new Transport
Socket, even while the client is already Connecting or Open; the
single-socket discipline exists only at its call sites — `watchStream`
invokes `connect()` only when not connected, so from a connected state its
guard opens no new socket. -/
theorem connect_opens_socket_unconditionally (s : ClientState) :
    (step s ClientOp.connectCall).state.socketsOpened = s.socketsOpened + 1 ∧
    (s.connected = true → watchEnsureConnected s = s) := by
  refine ⟨rfl, fun hc => ?_⟩
  simp [watchEnsureConnected, hc]

/-- Concrete witness for C8 (amended): applied to a connected client —
`connect()` opens a second socket there, while `watchStream`'s guard does
not call `connect()` at all. -/
theorem connect_opens_socket_unconditionally_witness :
    (step { initialState DEFAULT_OPTS with connected := true }
        ClientOp.connectCall).state.socketsOpened =
      { initialState DEFAULT_OPTS with connected := true }.socketsOpened + 1 ∧
    watchEnsureConnected { initialState DEFAULT_OPTS with connected := true } =
      { initialState DEFAULT_OPTS with connected := true } := by
  obtain ⟨h1, h2⟩ := connect_opens_socket_unconditionally
    { initialState DEFAULT_OPTS with connected := true }
  exact ⟨h1, h2 rfl⟩

/-- C9: no operation of the client ever changes the `destroyed` flag — the
source declares it (initialized `false`) and guards reconnect scheduling
and the reconnect timer on it, but contains no shutdown/destroy method
that sets it, so the guards are dead code. Were the flag set, the guarded
paths would behave as specified: a Close would schedule no reconnect, fire
no pending-call handler and leave the registry untouched, and a pending
reconnect timer would not call `connect()`. -/
theorem destroyed_never_set_guards_hold (s : ClientState) (op : ClientOp)
    (code : Int) :
    (step s op).state.destroyed = s.destroyed ∧
    (step { s with destroyed := true } (ClientOp.sockClose code)).scheds = [] ∧
    (step { s with destroyed := true } (ClientOp.sockClose code)).events = [] ∧
    (step { s with destroyed := true }
        (ClientOp.sockClose code)).state.callbacks = s.callbacks ∧
    (step { s with destroyed := true } ClientOp.timerFire).state =
      { s with destroyed := true } := by
  refine ⟨?_, ?_, ?_, ?_, ?_⟩
  · cases op <;> simp only [step] <;> first | rfl | (split_ifs <;> rfl)
  · simp [step]
  · simp [step]
  · simp [step]
  · simp [step]
